import Mathlib

/-!
Verification of the image-processing pipeline of `server_image.py`
(Cat-Printer): fetch gate, resize, grayscale brightness curve, dithering,
and PBM (P4) packing.  Machine integers are modelled as `Nat`/`Int`,
Python floats as `Rat`, Python exceptions as `Except`.
-/

namespace CatPrinter

/-- Errors of the pipeline (spec taxonomy; Python raises `ValueError` for all). -/
inductive PipelineError where
  | invalidInput
  | sizeLimit
  | network
  | decodeFail
  | config
  deriving DecidableEq, Repr

/-- A single-channel grayscale raster (Pillow mode `L`): `pixel x y` is the
luma value (0..255) at column `x`, row `y`. -/
structure GrayImage where
  width : Nat
  height : Nat
  pixel : Nat → Nat → Nat

/-- A bilevel raster (Pillow mode `1`): `pixel x y = true` means white
(Pillow stores 255), `false` means black (Pillow stores 0). -/
structure BilevelImage where
  width : Nat
  height : Nat
  pixel : Nat → Nat → Bool

/-! ### BitmapPacker: `pack_to_pbm` -/

/-- ASCII byte codes of the decimal representation of `n`
(Python `b'%d' % n`). -/
def asciiDigits (n : Nat) : List Nat :=
  (Nat.toDigits 10 n).map Char.toNat

/-- The header `b'P4\n%d %d\n' % (width, height)` of `pack_to_pbm`:
`P4`, newline, width, space, height, newline, as ASCII bytes. -/
def pbmHeader (w h : Nat) : List Nat :=
  [80, 52, 10] ++ asciiDigits w ++ [32] ++ asciiDigits h ++ [10]

/-- One output bit of Pillow's raw `1;I` (inverted bilevel) encoder used by
`img.tobytes("raw", "1;I")`: a stored pixel equal to 0 (black) yields bit 1;
positions past the row end pad with 0. -/
def bitOf (img : BilevelImage) (x y : Nat) : Nat :=
  if x < img.width ∧ img.pixel x y = false then 1 else 0

/-- Byte `j` of row `y`: eight pixels `8*j .. 8*j+7` packed MSB-first,
as Pillow's `1;I` packer does (mask starts at 128 and shifts right). -/
def packByte (img : BilevelImage) (y j : Nat) : Nat :=
  128 * bitOf img (8 * j) y + 64 * bitOf img (8 * j + 1) y +
    32 * bitOf img (8 * j + 2) y + 16 * bitOf img (8 * j + 3) y +
    8 * bitOf img (8 * j + 4) y + 4 * bitOf img (8 * j + 5) y +
    2 * bitOf img (8 * j + 6) y + bitOf img (8 * j + 7) y

/-- Number of bytes per packed row: `⌈width/8⌉` as the Pillow encoder emits
(a final partial byte is flushed whenever the mask moved). -/
def rowBytes (w : Nat) : Nat := (w + 7) / 8

/-- Row `y` of the raw `1;I` data: `rowBytes` packed bytes. -/
def packRow (img : BilevelImage) (y : Nat) : List Nat :=
  (List.range (rowBytes img.width)).map (packByte img y)

/-- The full raw `1;I` buffer: rows concatenated top to bottom with no
inter-row padding. -/
def packData (img : BilevelImage) : List Nat :=
  ((List.range img.height).map (packRow img)).flatten

/-- Model of `pack_to_pbm` on a mode-`1` image (the `convert('1')` branch is skipped):
header followed immediately by the raw inverted bit data. -/
def pack_to_pbm (img : BilevelImage) : List Nat :=
  pbmHeader img.width img.height ++ packData img

/-- Bit value the packed buffer holds for pixel `(x, y)`: bit `7 - x % 8`
of byte `x / 8` of row `y`. -/
def packedBit (img : BilevelImage) (x y : Nat) : Nat :=
  packByte img y (x / 8) / 2 ^ (7 - x % 8) % 2

/-! ### Fetcher: the URL gate of `download_image` -/

/-- Python `url.startswith('http')`, the only validation `download_image` performs
before issuing the network request. -/
def url_check (url : String) : Bool :=
  List.isPrefixOf "http".toList url.toList

/-- Model of `download_image` up to the point where the network request is issued:
`ValueError` (modelled `invalidInput`) when the prefix check fails,
otherwise the request proceeds. -/
def download_image_gate (url : String) : Except PipelineError Unit :=
  if url_check url then Except.ok () else Except.error PipelineError.invalidInput

/-- The scheme of a URL as the spec uses the word: the characters before the
first colon. -/
def urlScheme (url : String) : List Char :=
  url.toList.takeWhile (fun c => c ≠ Char.ofNat 58)

/-! ### Resizer: `resize_image` -/

/-- Python `int()` on a number: truncation toward zero. -/
def pyint (q : Rat) : Int :=
  if q < 0 then ⌈q⌉ else ⌊q⌋

/-- The size computation of `resize_image` on a `w0 × h0` source:
`width_percent = T / w0`, `target_height = int(h0 * width_percent)`.
The body contains no validation and no `raise`, so the result is
always `ok`; the actual resampling (Pillow `img.resize`, LANCZOS) is an
external capability and only the output size is modelled. -/
def resize_image (w0 h0 : Nat) (T : Int) : Except PipelineError (Int × Int) :=
  Except.ok (T, pyint ((h0 : Rat) * ((T : Rat) / (w0 : Rat))))

/-! ### GrayscaleTransformer: the brightness curve of `to_grayscale` -/

/-- Default of the `brightness` parameter of `to_grayscale` (line 49). -/
def to_grayscale_brightness_default : Int := 127

/-- The tone-curve factor of `adjust` inside `to_grayscale`:
`(brightness - 128) * (1 - m / 255.0) * (m / 255.0) * 2`. -/
def curveFactor (B : Int) (m : Nat) : Rat :=
  ((B : Rat) - 128) * (1 - (m : Rat) / 255) * ((m : Rat) / 255) * 2

/-- The `adjust` point operation: `int(max(0, min(255, m + factor)))`. -/
def adjust (B : Int) (m : Nat) : Int :=
  pyint (max 0 (min 255 ((m : Rat) + curveFactor B m)))

/-- The brightness stage of `to_grayscale`: the point transform is applied
only when `brightness != 128`. -/
def brightnessStage (B : Int) (m : Nat) : Int :=
  if B ≠ 128 then adjust B m else (m : Int)

/-! ### Ditherer -/

/-- Model of `dither_direct`: Pillow `convert('1', dither=NONE)` on an `L` image
maps each luma to white iff it is `≥ 128`. -/
def dither_direct (g : GrayImage) : BilevelImage :=
  ⟨g.width, g.height, fun x y => decide (128 ≤ g.pixel x y)⟩

/-- Modelled from the spec: one Floyd–Steinberg row (spec §4.4).  The
quantizer and diffusion live in Pillow (`convert('1', FLOYDSTEINBERG)`),
outside this repository, so they are modelled from the spec's words:
scan left to right; quantize `luma + error` to the nearest of {0, 255};
push 7/16 of the signed error right, 3/16 below-left, 5/16 below,
1/16 below-right, dropping shares that fall outside the raster.
`errs` holds the error carried into this row; the second component is the
error buffer for the next row. -/
def fsRow (g : GrayImage) (y : Nat) (errs : List Rat) : List Bool × List Rat :=
  let step := fun (acc : List Bool × Rat × List Rat) (x : Nat) =>
    let v : Rat := (g.pixel x y : Rat) + errs.getD x 0 + acc.2.1
    let white : Bool := if 255 ≤ 2 * v then true else false
    let e : Rat := if 255 ≤ 2 * v then v - 255 else v
    let nxt := acc.2.2
    let nxt := if 1 ≤ x then nxt.set (x - 1) (nxt.getD (x - 1) 0 + e * 3 / 16) else nxt
    let nxt := nxt.set x (nxt.getD x 0 + e * 5 / 16)
    let nxt := if x + 1 < g.width then nxt.set (x + 1) (nxt.getD (x + 1) 0 + e * 1 / 16)
      else nxt
    (acc.1 ++ [white], e * 7 / 16, nxt)
  let r := (List.range g.width).foldl step ([], 0, List.replicate g.width 0)
  (r.1, r.2.2)

/-- Modelled from the spec: all rows of Floyd–Steinberg error diffusion in
raster order (spec §4.4), threading the inter-row error buffer. -/
def fsRows (g : GrayImage) : List (List Bool) :=
  ((List.range g.height).foldl
    (fun (acc : List (List Bool) × List Rat) y =>
      let r := fsRow g y acc.2
      (acc.1 ++ [r.1], r.2))
    ([], List.replicate g.width 0)).1

/-- Model of `dither_floyd_steinberg`: `convert('1', dither=FLOYDSTEINBERG)`,
modelled from the spec's §4.4 description of the algorithm. -/
def dither_floyd_steinberg (g : GrayImage) : BilevelImage :=
  ⟨g.width, g.height, fun x y => ((fsRows g).getD y []).getD x false⟩

/-- The algorithm dispatch of `process_image`: `'algo-direct'` thresholds,
every other selector string falls to Floyd–Steinberg. -/
def dither_stage (algorithm : String) (g : GrayImage) : BilevelImage :=
  if algorithm = "algo-direct" then dither_direct g else dither_floyd_steinberg g

/-! ### Packer lemmas -/

lemma bitOf_le_one (img : BilevelImage) (x y : Nat) : bitOf img x y ≤ 1 := by
  unfold bitOf; split <;> simp

lemma byte_bit_extract (b0 b1 b2 b3 b4 b5 b6 b7 r : Nat)
    (h0 : b0 ≤ 1) (h1 : b1 ≤ 1) (h2 : b2 ≤ 1) (h3 : b3 ≤ 1)
    (h4 : b4 ≤ 1) (h5 : b5 ≤ 1) (h6 : b6 ≤ 1) (h7 : b7 ≤ 1) (hr : r < 8) :
    (128 * b0 + 64 * b1 + 32 * b2 + 16 * b3 + 8 * b4 + 4 * b5 + 2 * b6 + b7) /
        2 ^ (7 - r) % 2 = [b0, b1, b2, b3, b4, b5, b6, b7].getD r 0 := by
  interval_cases r <;> simp [List.getD] <;> omega

lemma bitOf_in_range (img : BilevelImage) (x y : Nat) (hx : x < img.width) :
    bitOf img x y = if img.pixel x y then 0 else 1 := by
  cases hp : img.pixel x y <;> simp [bitOf, hx, hp]

/-- The packed buffer stores, at position `(x, y)` with `x` in range, exactly
the inverted pixel: 1 for black, 0 for white. -/
lemma packedBit_eq (img : BilevelImage) (x y : Nat) (hx : x < img.width) :
    packedBit img x y = if img.pixel x y then 0 else 1 := by
  obtain ⟨j, r, hr8, rfl⟩ : ∃ j r, r < 8 ∧ x = 8 * j + r :=
    ⟨x / 8, x % 8, Nat.mod_lt _ (by norm_num), by omega⟩
  have hj : (8 * j + r) / 8 = j := by omega
  have hm : (8 * j + r) % 8 = r := by omega
  rw [packedBit, hj, hm, packByte,
    byte_bit_extract _ _ _ _ _ _ _ _ r (bitOf_le_one img _ y) (bitOf_le_one img _ y)
      (bitOf_le_one img _ y) (bitOf_le_one img _ y) (bitOf_le_one img _ y)
      (bitOf_le_one img _ y) (bitOf_le_one img _ y) (bitOf_le_one img _ y) hr8]
  interval_cases r <;> simp only [List.getD_cons_zero, List.getD_cons_succ] <;>
    exact bitOf_in_range img _ y hx

lemma packRow_length (img : BilevelImage) (y : Nat) :
    (packRow img y).length = rowBytes img.width := by
  simp [packRow]

lemma packData_length (img : BilevelImage) :
    (packData img).length = img.height * rowBytes img.width := by
  simp only [packData, List.length_flatten, List.map_map]
  have hm : List.map (List.length ∘ packRow img) (List.range img.height)
      = List.map (fun _ => rowBytes img.width) (List.range img.height) :=
    List.map_congr_left fun y _ => packRow_length img y
  rw [hm, List.map_const', List.sum_replicate, smul_eq_mul, List.length_range]

lemma rowBytes_eq_ceil (w : Nat) : (rowBytes w : Int) = ⌈(w : Rat) / 8⌉ := by
  have h1 : 8 * rowBytes w ≤ w + 7 := Nat.mul_div_le (w + 7) 8
  have h2 : w + 7 < 8 * (rowBytes w + 1) := Nat.lt_mul_div_succ (w + 7) (by norm_num)
  rw [eq_comm, Int.ceil_eq_iff]
  constructor
  · rw [lt_div_iff₀ (by norm_num : (0:Rat) < 8)]
    have : ((8 * rowBytes w : Nat) : Rat) ≤ ((w + 7 : Nat) : Rat) := by exact_mod_cast h1
    push_cast at this ⊢
    linarith
  · rw [div_le_iff₀ (by norm_num : (0:Rat) < 8)]
    have : (w : Nat) ≤ 8 * rowBytes w := by omega
    have hq : ((w : Nat) : Rat) ≤ ((8 * rowBytes w : Nat) : Rat) := by exact_mod_cast this
    push_cast at hq ⊢
    linarith

/-! ### Extensionality of the packer (it reads only in-bounds pixels) -/

lemma bitOf_eq_of_agree (a b : BilevelImage) (hw : a.width = b.width) (y : Nat)
    (hy : ∀ x, x < a.width → a.pixel x y = b.pixel x y) (x : Nat) :
    bitOf a x y = bitOf b x y := by
  unfold bitOf
  rw [← hw]
  by_cases hxw : x < a.width
  · rw [hy x hxw]
  · simp [hxw]

lemma packByte_eq_of_agree (a b : BilevelImage) (hw : a.width = b.width) (y : Nat)
    (hy : ∀ x, x < a.width → a.pixel x y = b.pixel x y) (j : Nat) :
    packByte a y j = packByte b y j := by
  unfold packByte
  rw [bitOf_eq_of_agree a b hw y hy, bitOf_eq_of_agree a b hw y hy,
    bitOf_eq_of_agree a b hw y hy, bitOf_eq_of_agree a b hw y hy,
    bitOf_eq_of_agree a b hw y hy, bitOf_eq_of_agree a b hw y hy,
    bitOf_eq_of_agree a b hw y hy, bitOf_eq_of_agree a b hw y hy]

lemma packRow_eq_of_agree (a b : BilevelImage) (hw : a.width = b.width) (y : Nat)
    (hy : ∀ x, x < a.width → a.pixel x y = b.pixel x y) :
    packRow a y = packRow b y := by
  unfold packRow
  rw [← hw]
  exact List.map_congr_left fun j _ => packByte_eq_of_agree a b hw y hy j

lemma packData_eq_of_agree (a b : BilevelImage) (hw : a.width = b.width)
    (hh : a.height = b.height)
    (hp : ∀ x y, x < a.width → y < a.height → a.pixel x y = b.pixel x y) :
    packData a = packData b := by
  unfold packData
  rw [← hh]
  exact congrArg List.flatten <| List.map_congr_left fun y hy =>
    packRow_eq_of_agree a b hw y fun x hx =>
      hp x y hx (List.mem_range.mp hy)

/-! ### Claims about the packer -/

/-- C1: for every bilevel raster of positive width and height, `pack_to_pbm`
emits the exact ASCII header `P4\n{w} {h}\n` immediately followed by the
binary raster; each row packs independently into `⌈w/8⌉` bytes, and the
total length is the header length plus `h * ⌈w/8⌉`. -/
theorem C1_pack_header_and_length (img : BilevelImage)
    (hw : 0 < img.width) (hh : 0 < img.height) :
    pack_to_pbm img = pbmHeader img.width img.height ++ packData img ∧
    (∀ y, (packRow img y).length = rowBytes img.width) ∧
    (rowBytes img.width : Int) = ⌈(img.width : Rat) / 8⌉ ∧
    (pack_to_pbm img).length =
      (pbmHeader img.width img.height).length + img.height * rowBytes img.width :=
  ⟨rfl, packRow_length img, rowBytes_eq_ceil img.width,
    by simp [pack_to_pbm, packData_length]⟩

/-- Witness for C1 on a concrete 10×2 checkerboard raster. -/
theorem C1_pack_header_and_length_witness :
    0 < (10 : Nat) ∧ 0 < (2 : Nat) ∧
    (pack_to_pbm ⟨10, 2, fun x y => decide ((x + y) % 2 = 0)⟩).length =
      (pbmHeader 10 2).length + 2 * rowBytes 10 :=
  ⟨by norm_num, by norm_num,
    (C1_pack_header_and_length ⟨10, 2, fun x y => decide ((x + y) % 2 = 0)⟩
      (by norm_num) (by norm_num)).2.2.2⟩

/-- C2: under direct dithering, a luma `≥ 128` packs to bit 0 (white) and a
luma `< 128` to bit 1 (black); an 8×1 all-white grayscale raster packs to
the single data byte `0x00`, an 8×1 all-black raster to `0xFF`. -/
theorem C2_direct_dither_packed_bits (g : GrayImage) (x y : Nat)
    (hx : x < g.width) :
    packedBit (dither_direct g) x y = (if 128 ≤ g.pixel x y then 0 else 1) ∧
    packData (dither_direct ⟨8, 1, fun _ _ => 255⟩) = [0] ∧
    packData (dither_direct ⟨8, 1, fun _ _ => 0⟩) = [255] := by
  refine ⟨?_, by decide, by decide⟩
  rw [packedBit_eq (dither_direct g) x y hx]
  by_cases h : 128 ≤ g.pixel x y <;> simp [dither_direct, h]

/-- Witness for C2 at pixel (0,0) of a concrete 2×1 raster. -/
theorem C2_direct_dither_packed_bits_witness :
    0 < (2 : Nat) ∧
    packedBit (dither_direct ⟨2, 1, fun x _ => if x = 0 then 200 else 50⟩) 0 0 =
      (if 128 ≤ (if (0:Nat) = 0 then (200:Nat) else 50) then 0 else 1) :=
  ⟨by norm_num,
    (C2_direct_dither_packed_bits ⟨2, 1, fun x _ => if x = 0 then 200 else 50⟩
      0 0 (by norm_num)).1⟩

/-- C9: packing is a pure function of the bilevel raster: two rasters with
the same width, height and in-bounds pixel values pack to byte-identical
buffers (in particular, packing the same raster twice gives equal output). -/
theorem C9_pack_pure_function (a b : BilevelImage) (hw : a.width = b.width)
    (hh : a.height = b.height)
    (hp : ∀ x y, x < a.width → y < a.height → a.pixel x y = b.pixel x y) :
    pack_to_pbm a = pack_to_pbm b := by
  unfold pack_to_pbm
  rw [hw, hh, packData_eq_of_agree a b hw hh hp]

/-- Witness for C9: two 4×1 rasters that agree on all in-bounds pixels but
differ out of bounds pack identically. -/
theorem C9_pack_pure_function_witness :
    pack_to_pbm ⟨4, 1, fun x _ => decide (x = 0)⟩ =
      pack_to_pbm ⟨4, 1, fun x _ => decide (x = 0 ∨ 10 ≤ x)⟩ :=
  C9_pack_pure_function ⟨4, 1, fun x _ => decide (x = 0)⟩
    ⟨4, 1, fun x _ => decide (x = 0 ∨ 10 ≤ x)⟩ rfl rfl
    (by intro x y hx hy; interval_cases x <;> rfl)

/-! ### Claims about the resizer -/

/-- C3 counterexample: on a 3×1 source with target width 2 the code returns
height `int(1 * 2/3) = 0`, while `round(1*2/3) = 1` as the claim states. -/
theorem C3_counterexample :
    resize_image 3 1 2 = Except.ok (2, 0) ∧ round ((1 : Rat) * 2 / 3) = 1 := by
  constructor
  · norm_num [resize_image, pyint]
  · rw [round_eq]; norm_num

/-- C3 (amended): for `w0 > 0` and `T ≥ 0` the resizer returns width `T` and
height `⌊h0·T/w0⌋` — Python `int()` truncation of the scale product, not
rounding to nearest. -/
theorem C3_resize_truncates (w0 h0 : Nat) (T : Int) (hw : 0 < w0) (hT : 0 ≤ T) :
    resize_image w0 h0 T = Except.ok (T, ((h0 : Int) * T) / (w0 : Int)) := by
  unfold resize_image
  have hq : (h0 : Rat) * ((T : Rat) / (w0 : Rat))
      = (((h0 : Int) * T : Int) : Rat) / ((w0 : Nat) : Rat) := by
    push_cast; ring
  have hq0 : (0 : Rat) ≤ (h0 : Rat) * ((T : Rat) / (w0 : Rat)) := by
    have hT' : (0 : Rat) ≤ (T : Rat) := by exact_mod_cast hT
    have hw' : (0 : Rat) ≤ (w0 : Rat) := by positivity
    exact mul_nonneg (by positivity) (div_nonneg hT' hw')
  rw [pyint, if_neg (not_lt.mpr hq0), hq, Rat.floor_intCast_div_natCast]

/-- Witness for C3 (amended) at the spec's own example 1000×500, T = 384. -/
theorem C3_resize_truncates_witness :
    0 < (1000 : Nat) ∧ (0 : Int) ≤ 384 ∧
    resize_image 1000 500 384 = Except.ok (384, 192) := by
  refine ⟨by norm_num, by norm_num, ?_⟩
  rw [C3_resize_truncates 1000 500 384 (by norm_num) (by norm_num)]
  norm_num

/-- C7 counterexample: with target width 0 the resizer does not fail; it
returns a 0-height size, and in particular no `ConfigError`. -/
theorem C7_counterexample :
    resize_image 1000 500 0 = Except.ok (0, 0) ∧
    resize_image 1000 500 0 ≠ Except.error PipelineError.config := by
  constructor
  · norm_num [resize_image, pyint]
  · simp [resize_image]

/-- C7 (amended): `resize_image` contains no validation of the target width:
for every source size and every `T ≤ 0` it still succeeds, raising no error
of any kind (`ConfigError` included). -/
theorem C7_resize_never_errors (w0 h0 : Nat) (T : Int) (hT : T ≤ 0)
    (e : PipelineError) : resize_image w0 h0 T ≠ Except.error e := by
  simp [resize_image]

/-- Witness for C7 (amended) at T = 0 against `ConfigError`. -/
theorem C7_resize_never_errors_witness :
    (0 : Int) ≤ 0 ∧
    resize_image 1000 500 0 ≠ Except.error PipelineError.config :=
  ⟨le_refl 0, C7_resize_never_errors 1000 500 0 (le_refl 0) PipelineError.config⟩

/-! ### Claims about the grayscale brightness curve -/

/-- C4: for every brightness `B ∈ [0,255]` the curve factor vanishes at luma
0 and luma 255, brightness 128 is the identity transform, and every output
of the brightness stage lies in `[0,255]`. -/
theorem C4_brightness_curve (B : Int) (hB0 : 0 ≤ B) (hB255 : B ≤ 255) :
    (curveFactor B 0 = 0 ∧ curveFactor B 255 = 0) ∧
    (∀ m : Nat, brightnessStage 128 m = m) ∧
    (∀ m : Nat, m ≤ 255 → 0 ≤ brightnessStage B m ∧ brightnessStage B m ≤ 255) := by
  refine ⟨⟨by norm_num [curveFactor], by norm_num [curveFactor]⟩,
    fun m => by norm_num [brightnessStage], fun m hm => ?_⟩
  by_cases hB : B = 128
  · subst hB
    constructor
    · simp [brightnessStage]
    · simp only [brightnessStage, ne_eq, not_true_eq_false, if_false]
      exact_mod_cast hm
  · have hs : brightnessStage B m = adjust B m := by simp [brightnessStage, hB]
    rw [hs, adjust]
    have hc0 : (0 : Rat) ≤ max 0 (min 255 ((m : Rat) + curveFactor B m)) :=
      le_max_left _ _
    have hc255 : max 0 (min 255 ((m : Rat) + curveFactor B m)) ≤ 255 :=
      max_le (by norm_num) (min_le_left _ _)
    rw [pyint, if_neg (not_lt.mpr hc0)]
    constructor
    · exact Int.floor_nonneg.mpr hc0
    · calc ⌊max 0 (min 255 ((m : Rat) + curveFactor B m))⌋
          ≤ ⌊(255 : Rat)⌋ := Int.floor_le_floor hc255
        _ = 255 := by norm_num

/-- Witness for C4 at B = 64, sampling luma 7 and 10. -/
theorem C4_brightness_curve_witness :
    (0 : Int) ≤ 64 ∧ (64 : Int) ≤ 255 ∧
    curveFactor 64 0 = 0 ∧ curveFactor 64 255 = 0 ∧
    brightnessStage 128 7 = 7 ∧
    (0 ≤ brightnessStage 64 10 ∧ brightnessStage 64 10 ≤ 255) :=
  ⟨by norm_num, by norm_num,
    ((C4_brightness_curve 64 (by norm_num) (by norm_num)).1).1,
    ((C4_brightness_curve 64 (by norm_num) (by norm_num)).1).2,
    ((C4_brightness_curve 64 (by norm_num) (by norm_num)).2).1 7,
    ((C4_brightness_curve 64 (by norm_num) (by norm_num)).2).2 10 (by norm_num)⟩

/-- C8 counterexample: the default brightness is 127, not the neutral 128,
and under it the brightness stage is not the identity: luma 128 maps to 127. -/
theorem C8_counterexample :
    to_grayscale_brightness_default = 127 ∧
    to_grayscale_brightness_default ≠ 128 ∧
    brightnessStage to_grayscale_brightness_default 128 = 127 := by
  refine ⟨rfl, by norm_num [to_grayscale_brightness_default], ?_⟩
  norm_num [to_grayscale_brightness_default, brightnessStage, adjust, curveFactor,
    pyint]

/-- C8 (amended): the default brightness parameter of `to_grayscale` is 127,
so the default invocation applies the (non-identity) tone curve with
`B = 127`, slightly darkening midtones — e.g. luma 128 maps to 127. -/
theorem C8_default_brightness_applies_curve :
    to_grayscale_brightness_default = 127 ∧
    (∀ m : Nat, brightnessStage to_grayscale_brightness_default m = adjust 127 m) ∧
    adjust 127 128 = 127 := by
  refine ⟨rfl, fun m => by norm_num [to_grayscale_brightness_default, brightnessStage], ?_⟩
  norm_num [adjust, curveFactor, pyint]

/-! ### Claims about the fetcher gate -/

/-- C6 counterexample: `httpx://example.com` has scheme `httpx`, which is
neither `http` nor `https`, yet the gate lets it proceed to the network
request because the check is only `url.startswith('http')`. -/
theorem C6_counterexample :
    urlScheme "httpx://example.com" ≠ "http".toList ∧
    urlScheme "httpx://example.com" ≠ "https".toList ∧
    download_image_gate "httpx://example.com" = Except.ok () :=
  ⟨by decide, by decide, rfl⟩

/-- C6 (amended): every URL whose scheme is `http` or `https` passes the
gate; the gate is only the prefix check `startswith('http')`, so rejection
implies a non-http(s) scheme but not conversely. -/
theorem C6_scheme_gate (url : String)
    (h : urlScheme url = "http".toList ∨ urlScheme url = "https".toList) :
    download_image_gate url = Except.ok () := by
  have hck : url_check url = true := by
    unfold url_check
    rw [ List.isPrefixOf_iff_prefix]
    have hs : urlScheme url <+: url.toList := List.takeWhile_prefix _
    rcases h with h | h
    · rw [h] at hs; exact hs
    · rw [h] at hs
      exact List.IsPrefix.trans ⟨[Char.ofNat 115], rfl⟩ hs
  rw [download_image_gate, if_pos hck]

/-- Witness for C6 (amended) on `https://x`. -/
theorem C6_scheme_gate_witness :
    (urlScheme "https://x" = "http".toList ∨
      urlScheme "https://x" = "https".toList) ∧
    download_image_gate "https://x" = Except.ok () :=
  ⟨Or.inr (by decide), C6_scheme_gate "https://x" (Or.inr (by decide))⟩

/-! ### Claims about dither selection -/

/-- C5: selecting `'algo-halftone'` runs Floyd–Steinberg error diffusion, not
a stateless 4×4 ordered threshold: on two 2×1 grayscale rasters that agree
at pixel (1,0) (both luma 120, same position mod 4), the output at (1,0)
differs because the quantization error of pixel (0,0) is diffused into it. -/
theorem C5_halftone_selection_diffuses :
    dither_stage "algo-halftone" ⟨2, 1, fun x _ => if x = 0 then 64 else 120⟩ =
      dither_floyd_steinberg ⟨2, 1, fun x _ => if x = 0 then 64 else 120⟩ ∧
    (⟨2, 1, fun x _ => if x = 0 then 64 else 120⟩ : GrayImage).pixel 1 0 =
      (⟨2, 1, fun x _ => if x = 0 then 0 else 120⟩ : GrayImage).pixel 1 0 ∧
    (dither_stage "algo-halftone"
      ⟨2, 1, fun x _ => if x = 0 then 64 else 120⟩).pixel 1 0 = true ∧
    (dither_stage "algo-halftone"
      ⟨2, 1, fun x _ => if x = 0 then 0 else 120⟩).pixel 1 0 = false := by
  refine ⟨by rw [dither_stage, if_neg (by decide)], rfl, ?_, ?_⟩
  · rw [dither_stage, if_neg (by decide)]
    norm_num [dither_floyd_steinberg, fsRows, fsRow, List.range_succ]
  · rw [dither_stage, if_neg (by decide)]
    norm_num [dither_floyd_steinberg, fsRows, fsRow, List.range_succ]

/-- C10: every selector string other than `'algo-direct'` — `'algo-halftone'`
and unrecognized strings included — makes the pipeline apply Floyd–Steinberg
error diffusion; no selector is rejected. -/
theorem C10_non_direct_selectors_floyd_steinberg (algorithm : String)
    (g : GrayImage) (h : algorithm ≠ "algo-direct") :
    dither_stage algorithm g = dither_floyd_steinberg g := by
  rw [dither_stage, if_neg h]

/-- Witness for C10 with the `'algo-halftone'` selector on a 1×1 raster. -/
theorem C10_non_direct_selectors_floyd_steinberg_witness :
    ("algo-halftone" : String) ≠ "algo-direct" ∧
    dither_stage "algo-halftone" ⟨1, 1, fun _ _ => 0⟩ =
      dither_floyd_steinberg ⟨1, 1, fun _ _ => 0⟩ :=
  ⟨by decide,
    C10_non_direct_selectors_floyd_steinberg "algo-halftone"
      ⟨1, 1, fun _ _ => 0⟩ (by decide)⟩

end CatPrinter
